import Mathlib

/-!
Verification of the TradingPulse Ichimoku tracker (`src/tracker/index.js`,
with the earlier variant `src/unnamed/part_000`).

Shallow embedding conventions:
* JS numbers are modelled as rationals `ℚ` (all inputs are finite reals;
  the spec treats prices as real numbers, and every arithmetic operation
  used — max, min, `+`, `/ 2` — is exact on the values involved).
* JS strings are modelled as `List Char`; `String.split`/`Array.join`
  become `splitOnChar`/`joinChar` below.
* The alert-history JSON object (string keys, value always `true`) is
  modelled as the list of its keys; `history[key]` is list membership,
  `history[key] = true` appends the key.  The possibly-missing backing
  file is an `Option` around that list.
* `Array.prototype.slice` with its negative-index clamping semantics is
  `jsSlice`.
* Thrown errors become `Except String`.
-/

namespace TradingPulse

/-- One parsed CSV row as built by `fetchHistoricalData` in
`src/tracker/index.js` (lines 37-46): each numeric field is the result of
`parseFloat`; `none` stands for `NaN` (non-numeric or absent text).
The `volume` column is read but never stored. -/
structure RawRow where
  date : List Char
  opn : Option ℚ
  high : Option ℚ
  low : Option ℚ
  close : Option ℚ
  deriving DecidableEq, Repr

/-- The row filter of `src/tracker/index.js` line 46:
`!isNaN(d.open) && !isNaN(d.high) && !isNaN(d.low) && !isNaN(d.close)`. -/
def keepRow (r : RawRow) : Bool :=
  r.opn.isSome && r.high.isSome && r.low.isSome && r.close.isSome

/-- The row filter of the earlier variant `src/unnamed/part_000` line 49:
the built object has no `open` field at all and the filter is
`!isNaN(d.high) && !isNaN(d.low) && !isNaN(d.close)`. -/
def keepRow_part000 (r : RawRow) : Bool :=
  r.high.isSome && r.low.isSome && r.close.isSome

/-- One daily OHLC bar of the Bar Series (a kept row; `date` is the
ISO-8601 string `d.date.toISOString()` would produce; `opn` is the
`open` field, still optional because the `part_000` variant omits it). -/
structure Bar where
  date : List Char
  opn : Option ℚ
  high : ℚ
  low : ℚ
  close : ℚ
  deriving DecidableEq, Repr

instance : Inhabited Bar := ⟨⟨[], none, 0, 0, 0⟩⟩

/-- Clamp one index argument of `Array.prototype.slice`: a negative index
counts from the end (clamped below at 0), a non-negative one is clamped
above at the length. -/
def jsSliceIndex (len idx : Int) : Int :=
  if idx < 0 then max (len + idx) 0 else min idx len

/-- `Array.prototype.slice(start, stop)` on a list.  The one-argument JS
form `a.slice(start)` is `jsSlice a start a.length`. -/
def jsSlice (l : List α) (start stop : Int) : List α :=
  let s := jsSliceIndex (l.length : Int) start
  let e := jsSliceIndex (l.length : Int) stop
  (l.drop s.toNat).take (e - s).toNat

/-- `getPeriodHighLow` from `calculateIchimoku` (lines 53-61): the running
max of `high` and min of `low` over a slice.  The JS initialisers are
`-Infinity`/`Infinity`; over `ℚ` we return `none` for the empty slice
(the JS function then yields `NaN` midpoints, which the guards in
`calculateIchimoku` prevent from ever being returned). -/
def getPeriodHighLow : List Bar → Option (ℚ × ℚ)
  | [] => none
  | d :: ds =>
      some (ds.foldl (fun hl x => (max hl.1 x.high, min hl.2 x.low)) (d.high, d.low))

/-- The Ichimoku Snapshot returned by `calculateIchimoku`
(lines 89-96): five rationals plus the latest bar's ISO date string. -/
structure IchimokuSnapshot where
  tenkan : ℚ
  kijun : ℚ
  senkouA : ℚ
  senkouB : ℚ
  price : ℚ
  date : List Char
  deriving DecidableEq, Repr

/-- `calculateIchimoku` from `src/tracker/index.js` lines 52-97,
slice for slice:
`tenkanSlice = data.slice(-9)`, `kijunSlice = data.slice(-26)`,
`t26_slice = data.slice(-35, -26)`, `k26_slice = data.slice(-52, -26)`,
`b52Slice = data.slice(-78, -26)`; the two length guards throw, and the
snapshot is built from the midpoints and the last bar.  The final match
arm is unreachable: once both guards pass the series has at least 78
bars, so every slice and `data.getLast?` are nonempty. -/
def calculateIchimoku (data : List Bar) : Except String IchimokuSnapshot :=
  let len : Int := (data.length : Int)
  let tenkanSlice := jsSlice data (-9) len
  let kijunSlice := jsSlice data (-26) len
  let t26_slice := jsSlice data (-26 - 9) (-26)
  let k26_slice := jsSlice data (-26 - 26) (-26)
  if t26_slice.length < 9 ∨ k26_slice.length < 26 then
    Except.error "Not enough data to calculate Senkou Span A"
  else
    let b52Slice := jsSlice data (-52 - 26) (-26)
    if b52Slice.length < 52 then
      Except.error "Not enough data to calculate Senkou Span B"
    else
      match getPeriodHighLow tenkanSlice, getPeriodHighLow kijunSlice,
            getPeriodHighLow t26_slice, getPeriodHighLow k26_slice,
            getPeriodHighLow b52Slice, data.getLast? with
      | some tHL, some kHL, some tHL26, some kHL26, some bHL, some latest =>
          Except.ok
            { tenkan := (tHL.1 + tHL.2) / 2
              kijun := (kHL.1 + kHL.2) / 2
              senkouA := ((tHL26.1 + tHL26.2) / 2 + (kHL26.1 + kHL26.2) / 2) / 2
              senkouB := (bHL.1 + bHL.2) / 2
              price := latest.close
              date := latest.date }
      | _, _, _, _, _, _ =>
          Except.error "Not enough data to calculate Senkou Span A"

/-- The three signal values.  In the source the signal is the string
`''` (falsy, published as `'NEUTRAL'`), `'BUY'` or `'SELL'`. -/
inductive Signal where
  | BUY
  | SELL
  | NEUTRAL
  deriving DecidableEq, Repr

/-- The Signal Classifier, `run` lines 163-168 together with the
`signal || 'NEUTRAL'` at line 194:
BUY when `tenkan > kijun && price > Math.max(senkouA, senkouB)`,
else SELL when `tenkan < kijun && price < Math.min(senkouA, senkouB)`,
else the falsy `''`, i.e. NEUTRAL. -/
def classify (s : IchimokuSnapshot) : Signal :=
  if s.tenkan > s.kijun ∧ s.price > max s.senkouA s.senkouB then Signal.BUY
  else if s.tenkan < s.kijun ∧ s.price < min s.senkouA s.senkouB then Signal.SELL
  else Signal.NEUTRAL

/-- The string the source stores in `signal`: `'BUY'`, `'SELL'`, or the
falsy `''`. -/
def signalName : Signal → List Char
  | Signal.BUY => 'B' :: 'U' :: 'Y' :: []
  | Signal.SELL => 'S' :: 'E' :: 'L' :: 'L' :: []
  | Signal.NEUTRAL => []

/-- `String.prototype.split(c)` for a one-character separator: the list
of the (possibly empty) segments between occurrences of `c`.  Always
nonempty, like its JS counterpart. -/
def splitOnChar (c : Char) : List Char → List (List Char)
  | [] => [[]]
  | x :: xs =>
      if x = c then [] :: splitOnChar c xs
      else
        match splitOnChar c xs with
        | [] => [[x]]
        | h :: t => (x :: h) :: t

/-- `Array.prototype.join(c)` for a one-character separator. -/
def joinChar (c : Char) : List (List Char) → List Char
  | [] => []
  | [x] => x
  | x :: y :: ys => x ++ c :: joinChar c (y :: ys)

/-- The dedup key of `checkAlertHistory` line 137:
`` `${signal}-${date.split('T')[0]}` ``. -/
def dedupKey (signal date : List Char) : List Char :=
  signal ++ '-' :: (splitOnChar 'T' date).headI

/-- `checkAlertHistory` from `src/tracker/index.js` lines 132-142.
The backing store is the key set of `alert-history.json`; `none` is a
missing file, which the function first materialises as `{}` (line 134).
Returns the JS boolean result together with the store as left on disk. -/
def checkAlertHistory (signal date : List Char)
    (store : Option (List (List Char))) : Bool × List (List Char) :=
  let history := match store with
    | none => ([] : List (List Char))
    | some h => h
  let key := dedupKey signal date
  if key ∈ history then (true, history)
  else (false, history ++ [key])

/-- Decoder used by the signal-history publisher, `run` lines 182-187:
`parts = key.split('-'); type = parts[0]`. -/
def decodeType (key : List Char) : List Char :=
  (splitOnChar '-' key).headI

/-- Decoder used by the signal-history publisher, `run` lines 182-187:
`parts.slice(1).join('-')`. -/
def decodeDate (key : List Char) : List Char :=
  joinChar '-' (splitOnChar '-' key).tail

/-- The observable outcome of one `run` (lines 147-221) on the core
state: the computed snapshot (if any), the classified signal (if the run
got that far), whether `checkAlertHistory` was invoked, whether an email
send was attempted, and the final backing store. -/
structure RunOutcome where
  snapshot : Option IchimokuSnapshot
  signal : Option Signal
  dedupCalled : Bool
  emailAttempted : Bool
  store : Option (List (List Char))
  deriving DecidableEq, Repr

/-- The core of `run` (lines 147-221) after the fetch: the `< 78` early
return (line 152), `calculateIchimoku`, the classifier, and — only for a
truthy (non-NEUTRAL) signal — the `checkAlertHistory` gate in front of
`sendEmail` (lines 170-178).  A thrown `calculateIchimoku` error is
caught by the outer `try` (line 217) and aborts the run. -/
def run (data : List Bar) (store : Option (List (List Char))) : RunOutcome :=
  if data.length < 78 then
    { snapshot := none, signal := none, dedupCalled := false
      emailAttempted := false, store := store }
  else
    match calculateIchimoku data with
    | Except.error _ =>
        { snapshot := none, signal := none, dedupCalled := false
          emailAttempted := false, store := store }
    | Except.ok ichi =>
        let signal := classify ichi
        if signal = Signal.NEUTRAL then
          { snapshot := some ichi, signal := some signal, dedupCalled := false
            emailAttempted := false, store := store }
        else
          let res := checkAlertHistory (signalName signal) ichi.date store
          { snapshot := some ichi, signal := some signal, dedupCalled := true
            emailAttempted := !res.1, store := some res.2 }

/-! ### Spec-side definitions (the spec's words, for the refinement
claims; `calculateIchimoku` above is the source's code) -/

/-- The largest `high` of a window (`0` for the empty window, which the
guards of `calculateIchimoku` exclude). -/
def maxHigh : List Bar → ℚ
  | [] => 0
  | d :: ds => ds.foldl (fun m x => max m x.high) d.high

/-- The smallest `low` of a window (`0` for the empty window, which the
guards of `calculateIchimoku` exclude). -/
def minLow : List Bar → ℚ
  | [] => 0
  | d :: ds => ds.foldl (fun m x => min m x.low) d.low

/-- The spec's `periodMidpoint(window) = (max(high over window) + min(low over window)) / 2`. -/
def specMidpoint (w : List Bar) : ℚ := (maxHigh w + minLow w) / 2

/-- The spec's window of the `p` bars ending `shift` bars before the
latest bar (`shift = 0` is the most recent `p` bars). -/
def specWindow (data : List Bar) (p shift : Nat) : List Bar :=
  (data.take (data.length - shift)).drop (data.length - shift - p)

/-- The Ichimoku Snapshot described by §4.1 of the spec, in the spec's
words: Tenkan and Kijun are the 9- and 26-period midpoints of the most
recent bars, Senkou A averages the 9- and 26-period midpoints of the
windows ending 26 bars back, Senkou B is the 52-period midpoint ending
26 bars back, and price/date come from the most recent bar. -/
def specSnapshot (data : List Bar) : IchimokuSnapshot :=
  { tenkan := specMidpoint (specWindow data 9 0)
    kijun := specMidpoint (specWindow data 26 0)
    senkouA := (specMidpoint (specWindow data 9 26) + specMidpoint (specWindow data 26 26)) / 2
    senkouB := specMidpoint (specWindow data 52 26)
    price := (data.getLast?.getD default).close
    date := (data.getLast?.getD default).date }

/-- A series of `n` identical bars at price `p` (flat-market series used
by the spec's scenario A and by witnesses). -/
def constBars (n : Nat) (p : ℚ) : List Bar :=
  List.replicate n
    { date := "2024-01-05T00:00:00.000Z".toList, opn := some p
      high := p, low := p, close := p }

/-- Forget a bar's `open` field — everything `calculateIchimoku` reads. -/
def eraseOpn (b : Bar) : Bar :=
  { date := b.date, opn := none, high := b.high, low := b.low, close := b.close }

/-! ### String splitting lemmas -/

/-- `splitOnChar` always returns at least one segment, like JS `split`. -/
theorem splitOnChar_ne_nil (c : Char) (s : List Char) : splitOnChar c s ≠ [] := by
  cases s with
  | nil => simp [splitOnChar]
  | cons x xs =>
      by_cases h : x = c
      · simp [splitOnChar, h]
      · cases hr : splitOnChar c xs <;> simp [splitOnChar, h, hr]

/-- The first segment of `split` is everything before the first separator. -/
theorem splitOnChar_headI (c : Char) (s : List Char) :
    (splitOnChar c s).headI = s.takeWhile (fun a => a ≠ c) := by
  induction s with
  | nil => simp [splitOnChar]
  | cons x xs ih =>
      by_cases h : x = c
      · simp [splitOnChar, h, List.takeWhile]
      · cases hr : splitOnChar c xs with
        | nil => exact absurd hr (splitOnChar_ne_nil c xs)
        | cons hd tl =>
            rw [hr] at ih
            simp only [decide_not, List.headI] at ih
            simp [splitOnChar, h, hr, List.takeWhile, ih, decide_not]

/-- Splitting and rejoining on the same separator is the identity. -/
theorem joinChar_splitOnChar (c : Char) (s : List Char) :
    joinChar c (splitOnChar c s) = s := by
  induction s with
  | nil => simp [splitOnChar, joinChar]
  | cons x xs ih =>
      by_cases h : x = c
      · subst h
        cases hr : splitOnChar x xs with
        | nil => exact absurd hr (splitOnChar_ne_nil x xs)
        | cons hd tl =>
            rw [hr] at ih
            simp [splitOnChar, hr, joinChar, ih]
      · cases hr : splitOnChar c xs with
        | nil => exact absurd hr (splitOnChar_ne_nil c xs)
        | cons hd tl =>
            rw [hr] at ih
            cases tl with
            | nil => simp [splitOnChar, h, hr, joinChar] at ih ⊢; exact ih
            | cons y ys => simp [splitOnChar, h, hr, joinChar] at ih ⊢; exact ih

/-- Splitting `sig ++ c :: rest` where `sig` avoids the separator peels
off `sig` as the first segment. -/
theorem splitOnChar_append (c : Char) (sig rest : List Char) (hc : c ∉ sig) :
    splitOnChar c (sig ++ c :: rest) = sig :: splitOnChar c rest := by
  induction sig with
  | nil => simp [splitOnChar]
  | cons a sig' ih =>
      have ha : a ≠ c := fun h => hc (h ▸ List.mem_cons_self a sig')
      have hc' : c ∉ sig' := fun h => hc (List.mem_cons_of_mem a h)
      have h2 := ih hc'
      show splitOnChar c (a :: (sig' ++ c :: rest)) = (a :: sig') :: splitOnChar c rest
      simp only [splitOnChar, if_neg ha]
      rw [h2]

/-! ### Slice and midpoint lemmas -/

/-- One-argument JS `slice(a)` with `a < 0`, on a long enough list, is a
suffix. -/
theorem jsSlice_neg_end (l : List α) (a : Int) (h0 : a < 0)
    (hp : 0 ≤ (l.length : Int) + a) :
    jsSlice l a (l.length : Int) = l.drop ((l.length : Int) + a).toNat := by
  simp only [jsSlice, jsSliceIndex]
  rw [if_pos h0, if_neg (by omega : ¬((l.length : Int) < 0)), max_eq_left hp, min_self]
  exact List.take_of_length_le (by rw [List.length_drop]; omega)

/-- JS `slice(a, b)` with both arguments negative, on a long enough
list, is a drop followed by a take. -/
theorem jsSlice_neg_neg (l : List α) (a b : Int) (hab : a ≤ b) (hb : b < 0)
    (ha : 0 ≤ (l.length : Int) + a) :
    jsSlice l a b = (l.drop ((l.length : Int) + a).toNat).take (b - a).toNat := by
  simp only [jsSlice, jsSliceIndex]
  rw [if_pos (by omega : a < 0), if_pos hb, max_eq_left ha,
      max_eq_left (by omega : (0 : Int) ≤ (l.length : Int) + b)]
  congr 1
  omega

/-- The paired max/min fold of `getPeriodHighLow` splits into the two
scalar folds. -/
theorem foldl_pair_split (ds : List Bar) (a b : ℚ) :
    ds.foldl (fun hl x => (max hl.1 x.high, min hl.2 x.low)) (a, b) =
      (ds.foldl (fun m x => max m x.high) a, ds.foldl (fun m x => min m x.low) b) := by
  induction ds generalizing a b with
  | nil => rfl
  | cons d ds ih => simp only [List.foldl_cons, ih]

/-- On a nonempty window `getPeriodHighLow` is the max of the highs
paired with the min of the lows. -/
theorem getPeriodHighLow_eq (w : List Bar) (hw : w ≠ []) :
    getPeriodHighLow w = some (maxHigh w, minLow w) := by
  cases w with
  | nil => exact absurd rfl hw
  | cons d ds => simp only [getPeriodHighLow, maxHigh, minLow, foldl_pair_split]

/-! ### Claim theorems: classifier and deduplicator -/

/-- C1: the Signal Classifier returns BUY iff `tenkan > kijun` and the
price is strictly above both Senkou spans; SELL iff `tenkan < kijun` and
the price is strictly below both; NEUTRAL exactly when neither strict
condition holds — in particular any exact equality at a comparison falls
into the NEUTRAL case. -/
theorem classify_characterisation (s : IchimokuSnapshot) :
    (classify s = Signal.BUY ↔
      s.tenkan > s.kijun ∧ s.price > max s.senkouA s.senkouB) ∧
    (classify s = Signal.SELL ↔
      s.tenkan < s.kijun ∧ s.price < min s.senkouA s.senkouB) ∧
    (classify s = Signal.NEUTRAL ↔
      ¬(s.tenkan > s.kijun ∧ s.price > max s.senkouA s.senkouB) ∧
      ¬(s.tenkan < s.kijun ∧ s.price < min s.senkouA s.senkouB)) := by
  unfold classify
  split_ifs with h1 h2
  · exact ⟨iff_of_true rfl h1,
      iff_of_false (by simp) (fun hs => lt_asymm h1.1 hs.1),
      iff_of_false (by simp) (fun hn => hn.1 h1)⟩
  · exact ⟨iff_of_false (by simp) h1,
      iff_of_true rfl h2,
      iff_of_false (by simp) (fun hn => hn.2 h2)⟩
  · exact ⟨iff_of_false (by simp) h1,
      iff_of_false (by simp) h2,
      iff_of_true rfl ⟨h1, h2⟩⟩

/-- C4: `checkAlertHistory` keys the store entry by the signal, a dash,
and the calendar-day portion of the date (everything before the first
`T`); a missing backing store is read as the empty mapping; the call
returns `true` iff the key is already present, and otherwise inserts the
key and returns `false`. -/
theorem checkAlertHistory_spec (signal date : List Char) (h : List (List Char)) :
    checkAlertHistory signal date none = checkAlertHistory signal date (some []) ∧
    dedupKey signal date = signal ++ '-' :: date.takeWhile (fun a => a ≠ 'T') ∧
    ((checkAlertHistory signal date (some h)).1 = true ↔ dedupKey signal date ∈ h) ∧
    (dedupKey signal date ∉ h →
      checkAlertHistory signal date (some h) = (false, h ++ [dedupKey signal date])) := by
  refine ⟨rfl, ?_, ?_, ?_⟩
  · unfold dedupKey
    rw [splitOnChar_headI]
  · unfold checkAlertHistory
    by_cases hk : dedupKey signal date ∈ h <;> simp [hk]
  · intro hk
    unfold checkAlertHistory
    simp [hk]

/-- Witness for C4 at the spec's own example inputs. -/
theorem checkAlertHistory_spec_witness :
    dedupKey "BUY".toList "2024-01-05T00:00:00.000Z".toList = "BUY-2024-01-05".toList ∧
    checkAlertHistory "BUY".toList "2024-01-05T00:00:00.000Z".toList (some []) =
      (false, [dedupKey "BUY".toList "2024-01-05T00:00:00.000Z".toList]) :=
  ⟨by decide,
    by simpa using
      (checkAlertHistory_spec "BUY".toList "2024-01-05T00:00:00.000Z".toList []).2.2.2
        (List.not_mem_nil _)⟩

/-- C5: encoding a dedup key from a BUY or SELL signal and any date
string, then decoding it back with the publisher's split/rejoin,
reproduces the signal string and the calendar-day portion of the date
exactly. -/
theorem dedupKey_roundTrip (signal date : List Char)
    (hsig : signal = signalName Signal.BUY ∨ signal = signalName Signal.SELL) :
    decodeType (dedupKey signal date) = signal ∧
    decodeDate (dedupKey signal date) = date.takeWhile (fun a => a ≠ 'T') := by
  have hc : '-' ∉ signal := by
    rcases hsig with h | h <;> subst h <;> decide
  unfold dedupKey decodeType decodeDate
  rw [splitOnChar_append '-' signal _ hc]
  refine ⟨rfl, ?_⟩
  show joinChar '-' (splitOnChar '-' (splitOnChar 'T' date).headI) = _
  rw [joinChar_splitOnChar, splitOnChar_headI]

/-- Witness for C5 at the spec's example: the key built from BUY and the
full ISO timestamp decodes to BUY and the bare day `2024-01-05`. -/
theorem dedupKey_roundTrip_witness :
    decodeType (dedupKey "BUY".toList "2024-01-05T00:00:00.000Z".toList) = "BUY".toList ∧
    decodeDate (dedupKey "BUY".toList "2024-01-05T00:00:00.000Z".toList) =
      "2024-01-05".toList := by
  have h := dedupKey_roundTrip "BUY".toList "2024-01-05T00:00:00.000Z".toList (Or.inl rfl)
  exact ⟨h.1, by rw [h.2]; decide⟩

/-- C7: the alert store only grows: every key present before a
`checkAlertHistory` call is present afterwards, a suppressed call leaves
the store unchanged, and any call changes the store by at most one
appended key. -/
theorem checkAlertHistory_monotone (signal date : List Char) (store : List (List Char)) :
    (∀ k, k ∈ store → k ∈ (checkAlertHistory signal date (some store)).2) ∧
    ((checkAlertHistory signal date (some store)).1 = true →
      (checkAlertHistory signal date (some store)).2 = store) ∧
    ((checkAlertHistory signal date (some store)).2 = store ∨
      (checkAlertHistory signal date (some store)).2 = store ++ [dedupKey signal date]) := by
  unfold checkAlertHistory
  by_cases hk : dedupKey signal date ∈ store <;>
    simp [hk, List.mem_append]
  exact fun k hkmem => Or.inl hkmem

/-- Witness for C7: a pre-existing key survives a call that inserts a new
one. -/
theorem checkAlertHistory_monotone_witness :
    "X".toList ∈ (checkAlertHistory "BUY".toList "2024-01-05".toList (some ["X".toList])).2 :=
  (checkAlertHistory_monotone "BUY".toList "2024-01-05".toList ["X".toList]).1
    "X".toList (by decide)

/-! ### Engine lemmas -/

/-- On at least 78 bars the engine succeeds and returns the snapshot
described by the spec (shared helper; claims C2, C3, C6 build on it). -/
theorem calcIchimoku_ok (data : List Bar) (h : 78 ≤ data.length) :
    calculateIchimoku data = Except.ok (specSnapshot data) := by
  have hlen : (78 : Int) ≤ (data.length : Int) := by exact_mod_cast h
  have ht : jsSlice data (-9) (data.length : Int) = data.drop (data.length - 9) := by
    rw [jsSlice_neg_end data (-9) (by omega) (by omega),
      (by omega : ((data.length : Int) + -9).toNat = data.length - 9)]
  have hk : jsSlice data (-26) (data.length : Int) = data.drop (data.length - 26) := by
    rw [jsSlice_neg_end data (-26) (by omega) (by omega),
      (by omega : ((data.length : Int) + -26).toNat = data.length - 26)]
  have ht26 : jsSlice data (-26 - 9) (-26) = (data.drop (data.length - 35)).take 9 := by
    rw [jsSlice_neg_neg data (-26 - 9) (-26) (by omega) (by omega) (by omega),
      (by omega : ((data.length : Int) + (-26 - 9)).toNat = data.length - 35),
      (by omega : ((-26 : Int) - (-26 - 9)).toNat = 9)]
  have hk26 : jsSlice data (-26 - 26) (-26) = (data.drop (data.length - 52)).take 26 := by
    rw [jsSlice_neg_neg data (-26 - 26) (-26) (by omega) (by omega) (by omega),
      (by omega : ((data.length : Int) + (-26 - 26)).toNat = data.length - 52),
      (by omega : ((-26 : Int) - (-26 - 26)).toNat = 26)]
  have hb52 : jsSlice data (-52 - 26) (-26) = (data.drop (data.length - 78)).take 52 := by
    rw [jsSlice_neg_neg data (-52 - 26) (-26) (by omega) (by omega) (by omega),
      (by omega : ((data.length : Int) + (-52 - 26)).toNat = data.length - 78),
      (by omega : ((-26 : Int) - (-52 - 26)).toNat = 52)]
  have n926 : ((data.drop (data.length - 35)).take 9).length = 9 := by
    rw [List.length_take, List.length_drop]; omega
  have n2626 : ((data.drop (data.length - 52)).take 26).length = 26 := by
    rw [List.length_take, List.length_drop]; omega
  have n5226 : ((data.drop (data.length - 78)).take 52).length = 52 := by
    rw [List.length_take, List.length_drop]; omega
  have w90 : specWindow data 9 0 = data.drop (data.length - 9) := by
    simp only [specWindow, Nat.sub_zero, List.take_length]
  have w260 : specWindow data 26 0 = data.drop (data.length - 26) := by
    simp only [specWindow, Nat.sub_zero, List.take_length]
  have w926 : specWindow data 9 26 = (data.drop (data.length - 35)).take 9 := by
    simp only [specWindow]
    rw [List.drop_take, (by omega : data.length - 26 - 9 = data.length - 35),
      (by omega : data.length - 26 - (data.length - 35) = 9)]
  have w2626 : specWindow data 26 26 = (data.drop (data.length - 52)).take 26 := by
    simp only [specWindow]
    rw [List.drop_take, (by omega : data.length - 26 - 26 = data.length - 52),
      (by omega : data.length - 26 - (data.length - 52) = 26)]
  have w5226 : specWindow data 52 26 = (data.drop (data.length - 78)).take 52 := by
    simp only [specWindow]
    rw [List.drop_take, (by omega : data.length - 26 - 52 = data.length - 78),
      (by omega : data.length - 26 - (data.length - 78) = 52)]
  have hne : data ≠ [] := List.ne_nil_of_length_pos (by omega)
  obtain ⟨latest, hlast⟩ := Option.isSome_iff_exists.mp (List.getLast?_isSome.mpr hne)
  have g1 := getPeriodHighLow_eq (data.drop (data.length - 9))
    (List.ne_nil_of_length_pos (by rw [List.length_drop]; omega))
  have g2 := getPeriodHighLow_eq (data.drop (data.length - 26))
    (List.ne_nil_of_length_pos (by rw [List.length_drop]; omega))
  have g3 := getPeriodHighLow_eq ((data.drop (data.length - 35)).take 9)
    (List.ne_nil_of_length_pos (by rw [List.length_take, List.length_drop]; omega))
  have g4 := getPeriodHighLow_eq ((data.drop (data.length - 52)).take 26)
    (List.ne_nil_of_length_pos (by rw [List.length_take, List.length_drop]; omega))
  have g5 := getPeriodHighLow_eq ((data.drop (data.length - 78)).take 52)
    (List.ne_nil_of_length_pos (by rw [List.length_take, List.length_drop]; omega))
  simp only [calculateIchimoku, ht, hk, ht26, hk26, hb52, n926, n2626, n5226,
    lt_self_iff_false, or_self, if_false, g1, g2, g3, g4, g5, hlast,
    specSnapshot, specMidpoint, w90, w260, w926, w2626, w5226, Option.getD_some]

/-- Below 78 bars the engine hits one of its two guards: the Senkou A
windows or the 52-bar Senkou B window come out short (shared helper). -/
theorem calcIchimoku_err_eq (data : List Bar) (h : data.length < 78) :
    calculateIchimoku data =
      if (jsSlice data (-26 - 9) (-26)).length < 9 ∨
          (jsSlice data (-26 - 26) (-26)).length < 26 then
        Except.error "Not enough data to calculate Senkou Span A"
      else Except.error "Not enough data to calculate Senkou Span B" := by
  have hb : (jsSlice data (-52 - 26) (-26)).length < 52 := by
    simp only [jsSlice, jsSliceIndex, List.length_take, List.length_drop]
    split_ifs <;> omega
  by_cases hg : (jsSlice data (-26 - 9) (-26)).length < 9 ∨
      (jsSlice data (-26 - 26) (-26)).length < 26
  · simp only [calculateIchimoku]
    rw [if_pos hg, if_pos hg]
  · simp only [calculateIchimoku]
    rw [if_neg hg, if_pos hb, if_neg hg]

/-- Below 78 bars the engine fails (shared helper). -/
theorem calcIchimoku_err (data : List Bar) (h : data.length < 78) :
    ∃ e, calculateIchimoku data = Except.error e := by
  by_cases hg : (jsSlice data (-26 - 9) (-26)).length < 9 ∨
      (jsSlice data (-26 - 26) (-26)).length < 26
  · exact ⟨_, by rw [calcIchimoku_err_eq data h, if_pos hg]⟩
  · exact ⟨_, by rw [calcIchimoku_err_eq data h, if_neg hg]⟩

/-! ### Flat-series lemmas -/

/-- Folding `max` over highs that all equal `P`, starting at `P`,
stays at `P` (shared helper). -/
theorem foldl_max_flat (P : ℚ) (ds : List Bar) (a : ℚ) (ha : a = P)
    (hds : ∀ b ∈ ds, b.high = P) :
    ds.foldl (fun m x => max m x.high) a = P := by
  induction ds generalizing a with
  | nil => exact ha
  | cons d ds ih =>
      simp only [List.foldl_cons]
      exact ih _ (by rw [ha, hds d (List.mem_cons_self d ds), max_self])
        (fun b hb => hds b (List.mem_cons_of_mem d hb))

/-- Folding `min` over lows that all equal `P`, starting at `P`,
stays at `P` (shared helper). -/
theorem foldl_min_flat (P : ℚ) (ds : List Bar) (a : ℚ) (ha : a = P)
    (hds : ∀ b ∈ ds, b.low = P) :
    ds.foldl (fun m x => min m x.low) a = P := by
  induction ds generalizing a with
  | nil => exact ha
  | cons d ds ih =>
      simp only [List.foldl_cons]
      exact ih _ (by rw [ha, hds d (List.mem_cons_self d ds), min_self])
        (fun b hb => hds b (List.mem_cons_of_mem d hb))

/-- The midpoint of a nonempty all-`P` window is `P` (shared helper). -/
theorem specMidpoint_flat (P : ℚ) (w : List Bar) (hw : w ≠ [])
    (hflat : ∀ b ∈ w, b.high = P ∧ b.low = P) :
    specMidpoint w = P := by
  cases w with
  | nil => exact absurd rfl hw
  | cons d ds =>
      have hh : maxHigh (d :: ds) = P :=
        foldl_max_flat P ds d.high (hflat d (List.mem_cons_self d ds)).1
          (fun b hb => (hflat b (List.mem_cons_of_mem d hb)).1)
      have hl : minLow (d :: ds) = P :=
        foldl_min_flat P ds d.low (hflat d (List.mem_cons_self d ds)).2
          (fun b hb => (hflat b (List.mem_cons_of_mem d hb)).2)
      unfold specMidpoint
      rw [hh, hl]
      ring

/-- On a flat all-`P` series of at least 78 bars the engine returns the
all-`P` snapshot (shared helper). -/
theorem flat_calc (data : List Bar) (P : ℚ) (h78 : 78 ≤ data.length)
    (hflat : ∀ b ∈ data, b.high = P ∧ b.low = P ∧ b.close = P) :
    calculateIchimoku data = Except.ok
      { tenkan := P, kijun := P, senkouA := P, senkouB := P, price := P,
        date := (data.getLast?.getD default).date } := by
  have hwin : ∀ p s : Nat, 0 < p → p + s ≤ data.length →
      specMidpoint (specWindow data p s) = P := by
    intro p s hp hps
    apply specMidpoint_flat
    · apply List.ne_nil_of_length_pos
      simp only [specWindow, List.length_drop, List.length_take]
      omega
    · intro b hb
      have hbd : b ∈ data := List.mem_of_mem_take (List.mem_of_mem_drop hb)
      exact ⟨(hflat b hbd).1, (hflat b hbd).2.1⟩
  rw [calcIchimoku_ok data h78]
  have hne : data ≠ [] := List.ne_nil_of_length_pos (by omega)
  have hlatest : data.getLast?.getD default ∈ data := by
    rw [List.getLast?_eq_getLast data hne]
    simp only [Option.getD_some]
    exact List.getLast_mem hne
  simp only [specSnapshot, Except.ok.injEq, IchimokuSnapshot.mk.injEq]
  refine ⟨hwin 9 0 (by norm_num) (by omega), hwin 26 0 (by norm_num) (by omega), ?_,
    hwin 52 26 (by norm_num) (by omega), (hflat _ hlatest).2.2, trivial⟩
  rw [hwin 9 26 (by norm_num) (by omega), hwin 26 26 (by norm_num) (by omega)]
  ring

/-- On an all-`P` snapshot no strict comparison holds, so the
classifier answers NEUTRAL (shared helper). -/
theorem classify_flat (P : ℚ) (d : List Char) :
    classify
      { tenkan := P, kijun := P, senkouA := P, senkouB := P, price := P,
        date := d } = Signal.NEUTRAL := by
  simp [classify]

/-! ### Open-field independence lemmas -/

/-- `Array.slice` commutes with `map` (shared helper). -/
theorem jsSlice_map (f : α → β) (l : List α) (a b : Int) :
    jsSlice (l.map f) a b = (jsSlice l a b).map f := by
  simp only [jsSlice, List.length_map, List.map_take, List.map_drop]

/-- `getPeriodHighLow` never reads `opn` (shared helper). -/
theorem getPeriodHighLow_map_eraseOpn (w : List Bar) :
    getPeriodHighLow (w.map eraseOpn) = getPeriodHighLow w := by
  cases w with
  | nil => rfl
  | cons d ds =>
      simp only [List.map_cons, getPeriodHighLow, List.foldl_map]
      rfl

/-- `maxHigh` never reads `opn` (shared helper). -/
theorem maxHigh_map_eraseOpn (w : List Bar) :
    maxHigh (w.map eraseOpn) = maxHigh w := by
  cases w with
  | nil => rfl
  | cons d ds =>
      simp only [List.map_cons, maxHigh, List.foldl_map]
      rfl

/-- `minLow` never reads `opn` (shared helper). -/
theorem minLow_map_eraseOpn (w : List Bar) :
    minLow (w.map eraseOpn) = minLow w := by
  cases w with
  | nil => rfl
  | cons d ds =>
      simp only [List.map_cons, minLow, List.foldl_map]
      rfl

/-- `specMidpoint` never reads `opn` (shared helper). -/
theorem specMidpoint_map_eraseOpn (w : List Bar) :
    specMidpoint (w.map eraseOpn) = specMidpoint w := by
  simp only [specMidpoint, maxHigh_map_eraseOpn, minLow_map_eraseOpn]

/-- `specWindow` commutes with `map` (shared helper). -/
theorem specWindow_map_eraseOpn (data : List Bar) (p s : Nat) :
    specWindow (data.map eraseOpn) p s = (specWindow data p s).map eraseOpn := by
  simp only [specWindow, List.length_map, List.map_take, List.map_drop]

/-- The spec snapshot never reads `opn` (shared helper). -/
theorem specSnapshot_map_eraseOpn (data : List Bar) :
    specSnapshot (data.map eraseOpn) = specSnapshot data := by
  cases hlast : data.getLast? with
  | none =>
      rw [List.getLast?_eq_none_iff] at hlast
      subst hlast
      rfl
  | some latest =>
      simp only [specSnapshot, specWindow_map_eraseOpn, specMidpoint_map_eraseOpn,
        List.getLast?_map, hlast, Option.map_some', Option.getD_some]
      rfl

/-- The engine never reads `opn` (shared helper). -/
theorem calcIchimoku_map_eraseOpn (data : List Bar) :
    calculateIchimoku (data.map eraseOpn) = calculateIchimoku data := by
  by_cases hlen : 78 ≤ data.length
  · rw [calcIchimoku_ok data hlen,
      calcIchimoku_ok (data.map eraseOpn) (by rw [List.length_map]; exact hlen),
      specSnapshot_map_eraseOpn]
  · rw [calcIchimoku_err_eq data (by omega),
      calcIchimoku_err_eq (data.map eraseOpn) (by rw [List.length_map]; omega),
      jsSlice_map, jsSlice_map, List.length_map, List.length_map]

/-! ### Claim theorems: engine and run -/

/-- C2: for every series of at least 78 bars the engine returns exactly
the snapshot the spec describes — Tenkan and Kijun are the 9- and
26-period midpoints of the most recent bars, Senkou A averages the 9-
and 26-period midpoints of the windows ending 26 bars before the latest
bar, Senkou B is the 52-period midpoint of that historical window, and
price and date come from the most recent bar. -/
theorem calculateIchimoku_computes_spec (data : List Bar) (h : 78 ≤ data.length) :
    calculateIchimoku data = Except.ok (specSnapshot data) :=
  calcIchimoku_ok data h

/-- Witness for C2 on a concrete 78-bar series. -/
theorem calculateIchimoku_computes_spec_witness :
    78 ≤ (constBars 78 1).length ∧
    calculateIchimoku (constBars 78 1) = Except.ok (specSnapshot (constBars 78 1)) :=
  ⟨by simp [constBars], calculateIchimoku_computes_spec (constBars 78 1) (by simp [constBars])⟩

/-- C3: the engine fails with its insufficient-history error exactly on
series of fewer than 78 bars — below 78 a required sub-window comes out
shorter than its period and a guard throws — and a `run` obtains a
snapshot exactly when 78 bars are available. -/
theorem insufficientHistory_iff (data : List Bar) (store : Option (List (List Char))) :
    ((∃ e, calculateIchimoku data = Except.error e) ↔ data.length < 78) ∧
    ((run data store).snapshot.isSome ↔ 78 ≤ data.length) := by
  constructor
  · constructor
    · rintro ⟨e, he⟩
      by_contra hge
      rw [calcIchimoku_ok data (by omega)] at he
      exact Except.noConfusion he
    · exact fun hlt => calcIchimoku_err data hlt
  · by_cases hl : data.length < 78
    · simp [run, hl]
    · have hok := calcIchimoku_ok data (by omega)
      simp only [run, if_neg hl, hok]
      rcases em (classify (specSnapshot data) = Signal.NEUTRAL) with hn | hn <;>
        simp [hn] <;> omega

/-- C6: on a series of at least 78 bars in which every bar has
`high = low = close = P`, the engine returns the all-`P` snapshot (with
the last bar's date) and the classifier pronounces it NEUTRAL. -/
theorem flat_series_neutral (data : List Bar) (P : ℚ) (h78 : 78 ≤ data.length)
    (hflat : ∀ b ∈ data, b.high = P ∧ b.low = P ∧ b.close = P) :
    calculateIchimoku data = Except.ok
      { tenkan := P, kijun := P, senkouA := P, senkouB := P, price := P,
        date := (data.getLast?.getD default).date } ∧
    classify
      { tenkan := P, kijun := P, senkouA := P, senkouB := P, price := P,
        date := (data.getLast?.getD default).date } = Signal.NEUTRAL :=
  ⟨flat_calc data P h78 hflat, classify_flat P _⟩

/-- Witness for C6: the spec's scenario A, 78 flat bars at price 190. -/
theorem flat_series_neutral_witness :
    calculateIchimoku (constBars 78 190) = Except.ok
      { tenkan := 190, kijun := 190, senkouA := 190, senkouB := 190, price := 190,
        date := ((constBars 78 190).getLast?.getD default).date } ∧
    classify
      { tenkan := 190, kijun := 190, senkouA := 190, senkouB := 190, price := 190,
        date := ((constBars 78 190).getLast?.getD default).date } = Signal.NEUTRAL :=
  flat_series_neutral (constBars 78 190) 190 (by simp [constBars])
    (by
      intro b hb
      simp only [constBars] at hb
      rw [List.eq_of_mem_replicate hb]
      exact ⟨rfl, rfl, rfl⟩)

/-- C8: a run whose classified signal is NEUTRAL never invokes the
deduplicator and leaves the durable alert store untouched. -/
theorem run_neutral_no_dedup (data : List Bar) (store : Option (List (List Char)))
    (h : (run data store).signal = some Signal.NEUTRAL) :
    (run data store).dedupCalled = false ∧ (run data store).store = store := by
  by_cases hl : data.length < 78
  · simp [run, hl]
  · cases hc : calculateIchimoku data with
    | error e => simp [run, hl, hc]
    | ok ichi =>
        by_cases hn : classify ichi = Signal.NEUTRAL
        · simp [run, hl, hc, hn]
        · simp only [run, if_neg hl, hc] at h
          simp [hn] at h

/-- Witness for C8: the flat 78-bar series classifies NEUTRAL and its
run neither calls the deduplicator nor changes the store. -/
theorem run_neutral_no_dedup_witness :
    (run (constBars 78 190) (some [])).dedupCalled = false ∧
    (run (constBars 78 190) (some [])).store = some [] :=
  run_neutral_no_dedup (constBars 78 190) (some [])
    (by
      have hc := flat_calc (constBars 78 190) 190 (by simp [constBars])
        (by
          intro b hb
          simp only [constBars] at hb
          rw [List.eq_of_mem_replicate hb]
          exact ⟨rfl, rfl, rfl⟩)
      have hlen : ¬((constBars 78 190).length < 78) := by simp [constBars]
      simp [run, hlen, hc, classify_flat])

/-- C9 counterexample: in `src/tracker/index.js` a row whose `open`
field does not parse as a number is dropped even though `high`, `low`
and `close` all parse — the filter requires `open` to be numeric too,
so the claim "kept even when its open field is absent or non-numeric"
fails on this row. -/
theorem keepRow_drops_bad_opn :
    keepRow { date := "2024-01-05".toList, opn := none
              high := some 3, low := some 1, close := some 2 } = false := rfl

/-- C9 (amended): the tracker's filter keeps a row iff all four of
`open`, `high`, `low`, `close` parse as numbers — a non-numeric or
absent `open` also drops the row — while the earlier `part_000` variant
keeps a row iff `high`, `low` and `close` parse, ignoring `open`. -/
theorem keepRow_characterisation (r : RawRow) :
    (keepRow r = true ↔
      r.opn.isSome ∧ r.high.isSome ∧ r.low.isSome ∧ r.close.isSome) ∧
    (keepRow_part000 r = true ↔
      r.high.isSome ∧ r.low.isSome ∧ r.close.isSome) := by
  constructor <;> simp [keepRow, keepRow_part000, and_assoc]

/-- C10: the engine is independent of the `open` field — two series
agreeing bar-for-bar on date, high, low and close (with arbitrary
`open`s) produce identical snapshots, hence identical signals. -/
theorem calculateIchimoku_ignores_opn (d1 d2 : List Bar)
    (h : List.Forall₂ (fun a b => a.date = b.date ∧ a.high = b.high ∧
      a.low = b.low ∧ a.close = b.close) d1 d2) :
    calculateIchimoku d1 = calculateIchimoku d2 ∧
    (calculateIchimoku d1).toOption.map classify =
      (calculateIchimoku d2).toOption.map classify := by
  have hmap : d1.map eraseOpn = d2.map eraseOpn := by
    induction h with
    | nil => rfl
    | cons ha _ ih =>
        rcases ha with ⟨h1, h2, h3, h4⟩
        simp only [List.map_cons, ih, List.cons.injEq, and_true]
        simp [eraseOpn, h1, h2, h3, h4]
  have heq : calculateIchimoku d1 = calculateIchimoku d2 := by
    rw [← calcIchimoku_map_eraseOpn d1, hmap, calcIchimoku_map_eraseOpn d2]
  exact ⟨heq, by rw [heq]⟩

/-- Witness for C10: one-bar series differing only in `open` (present
vs. absent) evaluate to the same result. -/
theorem calculateIchimoku_ignores_opn_witness :
    calculateIchimoku
        [{ date := "2024-01-05".toList, opn := some 5, high := 3, low := 1, close := 2 }] =
      calculateIchimoku
        [{ date := "2024-01-05".toList, opn := none, high := 3, low := 1, close := 2 }] :=
  (calculateIchimoku_ignores_opn _ _
    (List.Forall₂.cons ⟨rfl, rfl, rfl, rfl⟩ List.Forall₂.nil)).1

end TradingPulse
